import Mathlib

/-! ZstdStream (std/comp_zstd.go)

A shallow embedding of the `ZstdStream` connection wrapper.  The wrapper owns three
collaborators: the wrapped `net.Conn`, a `*zstd.Encoder` writing into it and a
`*zstd.Decoder` reading from it.  The collaborators are external to the file, so they are
method tables over explicit state: `τ` is the state of the transport, `ε` of the encoder and
`δ` of the decoder.  Every call a wrapper method makes on a collaborator is appended to a
trace, so that "which calls, in which order" is a statement about the result.
-/

namespace CompZstd

/-- A byte slice; the element values are plain data for the wrapper. -/
abbrev Bytes := List Nat

/-- The value of a `time.Time` argument (not inspected by the wrapper). -/
abbrev Time := Int

/-- The value of a `net.Addr` result (not inspected by the wrapper). -/
abbrev Addr := String

/-- Non-nil Go error values.  `leaf` is an error produced by a collaborator (`timeout` tells
whether the value itself implements `net.Error` with `Timeout() = true`); `withStack` and
`withMessage` are the two wrapper types of `github.com/pkg/errors` (the captured program
counters of `withStack` are not represented). -/
inductive GoError where
  | leaf (msg : String) (timeout : Bool)
  | withStack (err : GoError)
  | withMessage (cause : GoError) (msg : String)
  deriving DecidableEq, Repr

/-- A Go `error` interface value: `none` is `nil`. -/
abbrev Err := Option GoError

namespace GoError

/-- The `Error()` method: `withStack` promotes the method of the embedded error,
`withMessage` prints `msg + ": " + cause.Error()`. -/
def Error : GoError → String
  | leaf msg _ => msg
  | withStack err => err.Error
  | withMessage cause msg => msg ++ ": " ++ cause.Error

/-- The `Unwrap()` method of the two wrapper types; a leaf has none. -/
def Unwrap : GoError → Option GoError
  | leaf _ _ => none
  | withStack err => some err
  | withMessage cause _ => some cause

/-- The function `errors.Cause`: follows `Cause()` down to the first error without one. -/
def Cause : GoError → GoError
  | leaf msg t => leaf msg t
  | withStack err => err.Cause
  | withMessage cause _ => cause.Cause

/-- The type assertion `err.(net.Error)` followed by `Timeout()`: only the value itself is
inspected, the wrapper types of `pkg/errors` do not implement `net.Error`. -/
def isNetTimeout : GoError → Bool
  | leaf _ t => t
  | withStack _ => false
  | withMessage _ _ => false

end GoError

namespace errors

/-- The function `errors.WithStack`: `nil` stays `nil`, any other error is put inside a new
`withStack` value. -/
def WithStack : Err → Err
  | none => none
  | some e => some (GoError.withStack e)

/-- The function `errors.Wrap`: `nil` stays `nil`, any other error is put inside a
`withMessage` carrying `message`, itself inside a `withStack`. -/
def Wrap : Err → String → Err
  | none, _ => none
  | some e, message => some (GoError.withStack (GoError.withMessage e message))

end errors

/-- The methods of `net.Conn` over the transport state `τ`.  `Read` gets the caller's
buffer and returns its new contents next to `(n, err)`. -/
structure Conn (τ : Type) where
  Read : Bytes → τ → (Int × Err) × Bytes × τ
  Write : Bytes → τ → (Int × Err) × τ
  Close : τ → Err × τ
  LocalAddr : τ → Addr × τ
  RemoteAddr : τ → Addr × τ
  SetDeadline : Time → τ → Err × τ
  SetReadDeadline : Time → τ → Err × τ
  SetWriteDeadline : Time → τ → Err × τ

/-- The methods of `*zstd.Encoder` the wrapper uses.  An encoder is bound to its output
sink when it is built, so its methods act on the encoder state and the transport state. -/
structure Encoder (τ ε : Type) where
  Write : Bytes → ε → τ → (Int × Err) × ε × τ
  Flush : ε → τ → Err × ε × τ
  Close : ε → τ → Err × ε × τ

/-- The method of `*zstd.Decoder` the wrapper uses; the decoder is bound to its input
source when it is built. -/
structure Decoder (τ δ : Type) where
  Read : Bytes → δ → τ → (Int × Err) × Bytes × δ × τ

/-- A call made by a wrapper method on one of its collaborators, with its arguments. -/
inductive Call where
  | encWrite (p : Bytes)
  | encFlush
  | encClose
  | decRead (p : Bytes)
  | connClose
  | connLocalAddr
  | connRemoteAddr
  | connSetDeadline (t : Time)
  | connSetReadDeadline (t : Time)
  | connSetWriteDeadline (t : Time)
  deriving DecidableEq, Repr

/-- The state the wrapper's methods run in: the state of each collaborator and the trace
of the calls made on them so far. -/
structure Heap (τ ε δ : Type) where
  conn : τ
  enc : ε
  dec : δ
  trace : List Call

/-- The struct `ZstdStream`: the wrapped connection, the encoder and the decoder. -/
structure ZstdStream (τ ε δ : Type) where
  conn : Conn τ
  w : Encoder τ ε
  r : Decoder τ δ

/-- What a method of `*ZstdStream` leaves behind: its return value, the receiver's fields
after the call and the heap after the call. -/
structure Ret (τ ε δ α : Type) where
  val : α
  self : ZstdStream τ ε δ
  heap : Heap τ ε δ

section Calls

variable {τ ε δ : Type}

/-- The call `w.Write(p)` on an encoder, recorded in the trace. -/
def Encoder.callWrite (w : Encoder τ ε) (p : Bytes) (h : Heap τ ε δ) :
    (Int × Err) × Heap τ ε δ :=
  let out := w.Write p h.enc h.conn
  (out.1, { h with enc := out.2.1, conn := out.2.2, trace := h.trace ++ [Call.encWrite p] })

/-- The call `w.Flush()` on an encoder, recorded in the trace. -/
def Encoder.callFlush (w : Encoder τ ε) (h : Heap τ ε δ) : Err × Heap τ ε δ :=
  let out := w.Flush h.enc h.conn
  (out.1, { h with enc := out.2.1, conn := out.2.2, trace := h.trace ++ [Call.encFlush] })

/-- The call `w.Close()` on an encoder, recorded in the trace. -/
def Encoder.callClose (w : Encoder τ ε) (h : Heap τ ε δ) : Err × Heap τ ε δ :=
  let out := w.Close h.enc h.conn
  (out.1, { h with enc := out.2.1, conn := out.2.2, trace := h.trace ++ [Call.encClose] })

/-- The call `r.Read(p)` on a decoder, recorded in the trace. -/
def Decoder.callRead (r : Decoder τ δ) (p : Bytes) (h : Heap τ ε δ) :
    (Int × Err) × Bytes × Heap τ ε δ :=
  let out := r.Read p h.dec h.conn
  (out.1, out.2.1,
    { h with dec := out.2.2.1, conn := out.2.2.2, trace := h.trace ++ [Call.decRead p] })

/-- A call on the connection that returns an error, recorded in the trace as `c`. -/
def Conn.callErr (f : τ → Err × τ) (c : Call) (h : Heap τ ε δ) : Err × Heap τ ε δ :=
  let out := f h.conn
  (out.1, { h with conn := out.2, trace := h.trace ++ [c] })

/-- A call on the connection that returns an address, recorded in the trace as `c`. -/
def Conn.callAddr (f : τ → Addr × τ) (c : Call) (h : Heap τ ε δ) : Addr × Heap τ ε δ :=
  let out := f h.conn
  (out.1, { h with conn := out.2, trace := h.trace ++ [c] })

end Calls

namespace ZstdStream

variable {τ ε δ : Type}

/-- The method `(*ZstdStream).Read`: `return c.r.Read(p)`.  The value is `(n, err)` and
the contents of `p` after the call. -/
def Read (c : ZstdStream τ ε δ) (p : Bytes) (h : Heap τ ε δ) :
    Ret τ ε δ ((Int × Err) × Bytes) :=
  let out := c.r.callRead p h
  { val := (out.1, out.2.1), self := c, heap := out.2.2 }

/-- The method `(*ZstdStream).Write`: the encoder's `Write`, whose count is dropped, then
the encoder's `Flush`; an error of either is returned inside `errors.WithStack` with
count `0`, otherwise the result is `(len(p), nil)`. -/
def Write (c : ZstdStream τ ε δ) (p : Bytes) (h : Heap τ ε δ) : Ret τ ε δ (Int × Err) :=
  let out := c.w.callWrite p h
  match out.1.2 with
  | some err => { val := (0, errors.WithStack (some err)), self := c, heap := out.2 }
  | none =>
    let out2 := c.w.callFlush out.2
    match out2.1 with
    | some err => { val := (0, errors.WithStack (some err)), self := c, heap := out2.2 }
    | none => { val := ((p.length : Int), none), self := c, heap := out2.2 }

/-- The method `(*ZstdStream).Close`: `c.w.Close()` with its result dropped, then
`return c.conn.Close()`. -/
def Close (c : ZstdStream τ ε δ) (h : Heap τ ε δ) : Ret τ ε δ Err :=
  let out := c.w.callClose h
  let out2 := Conn.callErr c.conn.Close Call.connClose out.2
  { val := out2.1, self := c, heap := out2.2 }

/-- The method `(*ZstdStream).LocalAddr`: `return c.conn.LocalAddr()`. -/
def LocalAddr (c : ZstdStream τ ε δ) (h : Heap τ ε δ) : Ret τ ε δ Addr :=
  let out := Conn.callAddr c.conn.LocalAddr Call.connLocalAddr h
  { val := out.1, self := c, heap := out.2 }

/-- The method `(*ZstdStream).RemoteAddr`: `return c.conn.RemoteAddr()`. -/
def RemoteAddr (c : ZstdStream τ ε δ) (h : Heap τ ε δ) : Ret τ ε δ Addr :=
  let out := Conn.callAddr c.conn.RemoteAddr Call.connRemoteAddr h
  { val := out.1, self := c, heap := out.2 }

/-- The method `(*ZstdStream).SetDeadline`: `return c.conn.SetDeadline(t)`. -/
def SetDeadline (c : ZstdStream τ ε δ) (t : Time) (h : Heap τ ε δ) : Ret τ ε δ Err :=
  let out := Conn.callErr (c.conn.SetDeadline t) (Call.connSetDeadline t) h
  { val := out.1, self := c, heap := out.2 }

/-- The method `(*ZstdStream).SetReadDeadline`: `return c.conn.SetReadDeadline(t)`. -/
def SetReadDeadline (c : ZstdStream τ ε δ) (t : Time) (h : Heap τ ε δ) : Ret τ ε δ Err :=
  let out := Conn.callErr (c.conn.SetReadDeadline t) (Call.connSetReadDeadline t) h
  { val := out.1, self := c, heap := out.2 }

/-- The method `(*ZstdStream).SetWriteDeadline`: `return c.conn.SetWriteDeadline(t)`. -/
def SetWriteDeadline (c : ZstdStream τ ε δ) (t : Time) (h : Heap τ ε δ) : Ret τ ε δ Err :=
  let out := Conn.callErr (c.conn.SetWriteDeadline t) (Call.connSetWriteDeadline t) h
  { val := out.1, self := c, heap := out.2 }

end ZstdStream

/-- The compression levels of the zstd package. -/
inductive EncoderLevel where
  | SpeedFastest
  | SpeedDefault
  | SpeedBetterCompression
  | SpeedBestCompression
  deriving DecidableEq, Repr

/-- The encoder options `NewZstdStream` passes to `zstd.NewWriter`. -/
inductive EOption where
  | WithEncoderConcurrency (n : Int)
  | WithEncoderLevel (l : EncoderLevel)
  | WithWindowSize (n : Int)
  deriving DecidableEq, Repr

/-- The decoder option `NewZstdStream` passes to `zstd.NewReader`; its argument is a
`uint64`. -/
inductive DOption where
  | WithDecoderMaxWindow (size : Nat)
  deriving DecidableEq, Repr

/-- The conversion `uint64(n)` of a Go `int`. -/
def uint64 (n : Int) : Nat := (n % 2 ^ 64).toNat

/-- The two constructors of the zstd package, which is external to the file: each either
fails with an error or returns the encoder (decoder) bound to the given connection. -/
structure Zstd (τ ε δ : Type) where
  NewWriter : Conn τ → List EOption → Except GoError (Encoder τ ε)
  NewReader : Conn τ → List DOption → Except GoError (Decoder τ δ)

/-- A constructor call made by `NewZstdStream`, with its arguments. -/
inductive LibCall (τ : Type) where
  | NewWriter (w : Conn τ) (opts : List EOption)
  | NewReader (r : Conn τ) (opts : List DOption)

/-- The call `zstd.NewWriter(conn, opts...)`, recorded after the constructor calls made so
far. -/
def Zstd.callNewWriter {τ ε δ : Type} (zstd : Zstd τ ε δ) (conn : Conn τ)
    (opts : List EOption) (log : List (LibCall τ)) :
    Except GoError (Encoder τ ε) × List (LibCall τ) :=
  (zstd.NewWriter conn opts, log ++ [LibCall.NewWriter conn opts])

/-- The call `zstd.NewReader(conn, opts...)`, recorded after the constructor calls made so
far. -/
def Zstd.callNewReader {τ ε δ : Type} (zstd : Zstd τ ε δ) (conn : Conn τ)
    (opts : List DOption) (log : List (LibCall τ)) :
    Except GoError (Decoder τ δ) × List (LibCall τ) :=
  (zstd.NewReader conn opts, log ++ [LibCall.NewReader conn opts])

/-- The result of `NewZstdStream`: the returned pair `(*ZstdStream, error)` and the
constructor calls made, in order. -/
structure NewResult (τ ε δ : Type) where
  stream : Option (ZstdStream τ ε δ)
  err : Err
  calls : List (LibCall τ)

/-- The options of the `zstd.NewWriter` call in `NewZstdStream`. -/
def encoderOptions (windowSize : Int) : List EOption :=
  [EOption.WithEncoderConcurrency 1,
   EOption.WithEncoderLevel EncoderLevel.SpeedBestCompression,
   EOption.WithWindowSize windowSize]

/-- The options of the `zstd.NewReader` call in `NewZstdStream`. -/
def decoderOptions (windowSize : Int) : List DOption :=
  [DOption.WithDecoderMaxWindow (uint64 windowSize)]

/-- The function `NewZstdStream`: builds the encoder on `conn`, returning
`errors.Wrap(err, "zstd.NewWriter")` when that fails, then the decoder on `conn`, returning
`errors.Wrap(err, "zstd.NewReader")` when that fails, and the stream otherwise. -/
def NewZstdStream {τ ε δ : Type} (zstd : Zstd τ ε δ) (conn : Conn τ) (windowSize : Int) :
    NewResult τ ε δ :=
  let out := zstd.callNewWriter conn (encoderOptions windowSize) []
  match out.1 with
  | .error err =>
    { stream := none, err := errors.Wrap (some err) "zstd.NewWriter", calls := out.2 }
  | .ok w =>
    let out2 := zstd.callNewReader conn (decoderOptions windowSize) out.2
    match out2.1 with
    | .error err =>
      { stream := none, err := errors.Wrap (some err) "zstd.NewReader", calls := out2.2 }
    | .ok r =>
      { stream := some { conn := conn, w := w, r := r }, err := none, calls := out2.2 }

/-- Whether a constructor call is a call of `zstd.NewReader`. -/
def LibCall.isNewReader {τ : Type} : LibCall τ → Bool
  | .NewWriter _ _ => false
  | .NewReader _ _ => true

/-! ## Reference collaborators

The codec and the transport are outside the file.  The definitions below give one
executable instance of each, used where a statement needs a concrete encoder, decoder or
connection: an in-memory connection endpoint with deadlines, an encoder that buffers what
it is given and emits one frame per `Flush`, and a decoder that parses frames. -/

/-- The state of one end of an in-memory connection: the bytes written and still in flight
to the peer, the bytes arrived from the peer and not yet read, whether this end is closed,
whether the peer has closed, the current time and the two deadlines (`0` is the zero time:
no deadline). -/
structure Endpoint where
  outbox : Bytes
  inbox : Bytes
  closed : Bool
  peerClosed : Bool
  now : Time
  readDeadline : Time
  writeDeadline : Time
  deriving DecidableEq, Repr

/-- The error of an operation on a closed connection or a closed encoder. -/
def errClosed : GoError := GoError.leaf "use of closed connection" false

/-- The timeout error of the transport; the value implements `net.Error` with
`Timeout() = true`. -/
def errTimeout : GoError := GoError.leaf "i/o timeout" true

/-- The end-of-stream signal `io.EOF`. -/
def errEOF : GoError := GoError.leaf "EOF" false

/-- The error `io.ErrUnexpectedEOF` of a stream that ends inside a frame. -/
def errUnexpectedEOF : GoError := GoError.leaf "unexpected EOF" false

/-- The decode error of input that is not a frame. -/
def errInvalidInput : GoError := GoError.leaf "invalid input: magic number mismatch" false

/-- The decode error of a frame whose window is larger than the decoder accepts. -/
def errWindowExceeded : GoError := GoError.leaf "window size exceeded" false

/-- The decode error of a damaged frame. -/
def errCorrupt : GoError := GoError.leaf "corrupt input" false

/-- Modelled from the spec: the wrapped transport as an in-memory endpoint.  `Write` puts
the bytes in flight, `Read` takes arrived bytes; both fail on a closed end and with the
timeout error once their deadline has expired.  A `Read` that finds nothing arrived
returns the end-of-stream signal when the peer has closed and otherwise waits: with a
deadline it returns the timeout error at the deadline; without one it waits for ever in
Go, which is given the result `(0, nil)` here, the endpoint unchanged. -/
def pipeConn : Conn Endpoint where
  Read := fun buf t =>
    if t.closed then ((0, some errClosed), buf, t)
    else if t.readDeadline ≠ 0 ∧ t.readDeadline ≤ t.now then ((0, some errTimeout), buf, t)
    else if buf = [] then ((0, none), buf, t)
    else if t.inbox = [] then
      if t.peerClosed then ((0, some errEOF), buf, t)
      else if t.readDeadline ≠ 0 then
        ((0, some errTimeout), buf, { t with now := t.readDeadline })
      else ((0, none), buf, t)
    else
      let n := min buf.length t.inbox.length
      (((n : Int), none), t.inbox.take n ++ buf.drop n, { t with inbox := t.inbox.drop n })
  Write := fun p t =>
    if t.closed then ((0, some errClosed), t)
    else if t.writeDeadline ≠ 0 ∧ t.writeDeadline ≤ t.now then ((0, some errTimeout), t)
    else (((p.length : Int), none), { t with outbox := t.outbox ++ p })
  Close := fun t =>
    if t.closed then (some errClosed, t) else (none, { t with closed := true })
  LocalAddr := fun t => ("local", t)
  RemoteAddr := fun t => ("remote", t)
  SetDeadline := fun d t => (none, { t with readDeadline := d, writeDeadline := d })
  SetReadDeadline := fun d t => (none, { t with readDeadline := d })
  SetWriteDeadline := fun d t => (none, { t with writeDeadline := d })

/-- The network between the two ends of a connected pair: the bytes in flight from the
first end arrive, in order, in the inbox of the second, which also learns whether the first
has closed. -/
def deliver (a b : Endpoint) : Endpoint × Endpoint :=
  ({ a with outbox := [] },
   { b with inbox := b.inbox ++ a.outbox, peerClosed := b.peerClosed || a.closed })

/-- The first byte of a frame. -/
def frameMagic : Nat := 40

/-- The byte that ends the stream, written when the encoder is closed. -/
def endMark : Nat := 41

/-- The frame an encoder of the given window emits for the bytes `p`: the magic number,
the window, the number of bytes and the bytes themselves, each raised by one. -/
def frame (window : Nat) (p : Bytes) : Bytes :=
  [frameMagic, window, p.length] ++ p.map (· + 1)

/-- The state of the reference encoder: the plaintext already handed to the sink in
frames, the plaintext taken by `Write` and not yet handed over, and whether `Close` was
called. -/
structure EncState where
  history : Bytes
  pending : Bytes
  closed : Bool
  deriving DecidableEq, Repr

/-- Where the reference decoder stands in its input: between frames, after the magic
number, after the window, inside the bytes of a frame with `more + 1` of them to come, or
after the end mark. -/
inductive Phase where
  | idle
  | window
  | length
  | payload (more : Nat)
  | ended
  deriving DecidableEq, Repr

/-- The state of the reference decoder: its place in the input, the plaintext decoded and
not yet returned, and the decode error it has met, which is final. -/
structure DecState where
  phase : Phase
  out : Bytes
  failed : Option GoError
  deriving DecidableEq, Repr

/-- The reference decoder takes one byte of input.  Input that does not start a frame, a
frame whose window is above `maxWindow` and a damaged frame each give a decode error. -/
def feedByte (maxWindow : Nat) (d : DecState) (b : Nat) : DecState :=
  match d.failed with
  | some _ => d
  | none =>
    match d.phase with
    | .idle =>
      if b = frameMagic then { d with phase := .window }
      else if b = endMark then { d with phase := .ended }
      else { d with failed := some errInvalidInput }
    | .window =>
      if b ≤ maxWindow then { d with phase := .length }
      else { d with failed := some errWindowExceeded }
    | .length =>
      match b with
      | 0 => { d with phase := .idle }
      | n + 1 => { d with phase := .payload n }
    | .payload more =>
      match b with
      | 0 => { d with failed := some errCorrupt }
      | c + 1 =>
        { d with
          out := d.out ++ [c]
          phase := match more with
            | 0 => .idle
            | m + 1 => .payload m }
    | .ended => { d with failed := some errCorrupt }

/-- The reference decoder takes a run of input bytes. -/
def feed (maxWindow : Nat) (d : DecState) (bytes : Bytes) : DecState :=
  bytes.foldl (feedByte maxWindow) d

/-- Modelled from the spec: an encoder of the given window bound to `sink`.  `Write` keeps
the bytes as pending; `Flush` writes the frame of the pending bytes to the sink and, when
the sink took it, has nothing pending any more; `Close` writes the frame of the pending
bytes and the end mark, and closes the encoder. -/
def bufEncoder {τ : Type} (window : Nat) (sink : Conn τ) : Encoder τ EncState where
  Write := fun p e t =>
    if e.closed then ((0, some errClosed), e, t)
    else (((p.length : Int), none), { e with pending := e.pending ++ p }, t)
  Flush := fun e t =>
    if e.closed then (some errClosed, e, t)
    else
      let out := sink.Write (frame window e.pending) t
      match out.1.2 with
      | some err => (some err, e, out.2)
      | none => (none, { e with history := e.history ++ e.pending, pending := [] }, out.2)
  Close := fun e t =>
    if e.closed then (none, e, t)
    else
      let out := sink.Write (frame window e.pending ++ [endMark]) t
      match out.1.2 with
      | some err => (some err, { e with closed := true }, out.2)
      | none =>
        (none, { history := e.history ++ e.pending, pending := [], closed := true }, out.2)

/-- Modelled from the spec: a decoder accepting windows up to `maxWindow`, bound to an
endpoint.  `Read` takes what has arrived at its source and decodes it; it returns decoded
bytes not yet returned, as many as fit in the buffer; with none to return and a non-empty
buffer it returns the decode error it has met, `io.ErrUnexpectedEOF` when the source ended
inside a frame, or else what the source returned: the end-of-stream signal, the timeout
error, or, where the call waits for ever in Go, the result `(0, nil)` of the source, which
adds no byte to a run. -/
def pipeDecoder (maxWindow : Nat) : Decoder Endpoint DecState where
  Read := fun buf d t =>
    let got := pipeConn.Read (List.replicate (t.inbox.length + 1) 0) t
    let d1 := feed maxWindow d (got.2.1.take got.1.1.toNat)
    let n := min buf.length d1.out.length
    if 0 < n ∨ buf = [] then
      (((n : Int), none), d1.out.take n ++ buf.drop n, { d1 with out := d1.out.drop n },
        got.2.2)
    else
      match d1.failed with
      | some err => ((0, some err), buf, d1, got.2.2)
      | none =>
        match got.1.2 with
        | some err =>
          if err = errEOF ∧ d1.phase ≠ Phase.idle ∧ d1.phase ≠ Phase.ended then
            ((0, some errUnexpectedEOF), buf, d1, got.2.2)
          else ((0, some err), buf, d1, got.2.2)
        | none => ((0, none), buf, d1, got.2.2)

/-- The window check of `zstd.WithWindowSize`: a power of two from 1 KiB to 512 MiB. -/
def validEncoderWindow (n : Int) : Bool :=
  decide (1024 ≤ n) && decide (n ≤ 2 ^ 29) && (n.toNat &&& (n.toNat - 1)) == 0

/-- The window check of `zstd.WithDecoderMaxWindow`: at least 1 KiB and at most
`(1<<41) + 7*(1<<38)`. -/
def validDecoderWindow (size : Nat) : Bool :=
  decide (1024 ≤ size) && decide (size ≤ 2 ^ 41 + 7 * 2 ^ 38)

/-- Whether an encoder option is accepted. -/
def EOption.valid : EOption → Bool
  | .WithEncoderConcurrency n => decide (0 < n)
  | .WithEncoderLevel _ => true
  | .WithWindowSize n => validEncoderWindow n

/-- Whether a decoder option is accepted. -/
def DOption.valid : DOption → Bool
  | .WithDecoderMaxWindow size => validDecoderWindow size

/-- The window the encoder options ask for; 8 MiB when they name none. -/
def encoderWindow (opts : List EOption) : Nat :=
  opts.foldl (fun w o => match o with
    | .WithWindowSize n => n.toNat
    | _ => w) (2 ^ 23)

/-- The maximum window the decoder options ask for; 64 GiB when they name none. -/
def decoderMaxWindow (opts : List DOption) : Nat :=
  opts.foldl (fun _ o => match o with
    | .WithDecoderMaxWindow size => size) (2 ^ 36)

/-- Modelled from the spec: the constructors of the codec package over endpoints.  A
constructor fails when one of its options is invalid (an invalid window size), and
otherwise returns the reference encoder of the window asked for (the reference decoder of
the maximum window asked for) bound to the connection. -/
def pipeZstd : Zstd Endpoint EncState DecState where
  NewWriter := fun conn opts =>
    if opts.all EOption.valid then .ok (bufEncoder (encoderWindow opts) conn)
    else .error (GoError.leaf "invalid encoder option" false)
  NewReader := fun _ opts =>
    if opts.all DOption.valid then .ok (pipeDecoder (decoderMaxWindow opts))
    else .error (GoError.leaf "invalid decoder option" false)

/-- The state of a freshly built encoder. -/
def EncState.fresh : EncState := { history := [], pending := [], closed := false }

/-- The state of a freshly built decoder. -/
def DecState.fresh : DecState := { phase := .idle, out := [], failed := none }

/-- An open endpoint with nothing in flight and no deadline. -/
def Endpoint.fresh : Endpoint :=
  { outbox := [], inbox := [], closed := false, peerClosed := false, now := 1,
    readDeadline := 0, writeDeadline := 0 }

/-- The heap right after `NewZstdStream` on a fresh endpoint. -/
def Heap.fresh : Heap Endpoint EncState DecState :=
  { conn := Endpoint.fresh, enc := EncState.fresh, dec := DecState.fresh, trace := [] }

/-- The wrapper on the reference collaborators of one window: the stream `NewZstdStream`
returns for the reference package on an endpoint. -/
def pipeStream (window : Nat) : ZstdStream Endpoint EncState DecState :=
  { conn := pipeConn, w := bufEncoder window pipeConn, r := pipeDecoder window }

/-- The wrapper on the reference collaborators with window 1024. -/
def demoStream : ZstdStream Endpoint EncState DecState := pipeStream 1024

/-- A fresh heap whose write deadline has been set to the current time, so that it has
expired. -/
def expiredHeap : Heap Endpoint EncState DecState :=
  (demoStream.SetWriteDeadline 1 Heap.fresh).heap

/-! ## Runs of a connected pair -/

/-- One step of a run of a connected pair with wrapper `a` on one end and wrapper `b` on
the other: a `Write` of a chunk on `a`, the network delivering what is in flight from `a`
to `b`, or a `Read` on `b` with a buffer of the given size. -/
inductive Step where
  | write (p : Bytes)
  | deliver
  | read (size : Nat)
  deriving DecidableEq, Repr

/-- The state of a run: the heap of each end, the concatenation of the bytes the `Read`
calls have returned, and whether every `Write` call has returned `(len(p), nil)`. -/
structure Run (τ ε δ : Type) where
  a : Heap τ ε δ
  b : Heap τ ε δ
  got : Bytes
  wrote : Bool

/-- One step of a run.  A `Read` is made on a zeroed buffer, and contributes the first `n`
bytes of the buffer, `n` being the count it returns. -/
def step {τ ε δ : Type} (net : τ → τ → τ × τ) (a b : ZstdStream τ ε δ) (s : Run τ ε δ) :
    Step → Run τ ε δ
  | .write p =>
    let r := a.Write p s.a
    { s with a := r.heap, wrote := s.wrote && decide (r.val = ((p.length : Int), none)) }
  | .deliver =>
    let n := net s.a.conn s.b.conn
    { s with a := { s.a with conn := n.1 }, b := { s.b with conn := n.2 } }
  | .read size =>
    let r := b.Read (List.replicate size 0) s.b
    { s with b := r.heap, got := s.got ++ r.val.2.take r.val.1.1.toNat }

/-- A run: the steps in order. -/
def run {τ ε δ : Type} (net : τ → τ → τ × τ) (a b : ZstdStream τ ε δ) (s : Run τ ε δ)
    (steps : List Step) : Run τ ε δ :=
  steps.foldl (step net a b) s

/-- The bytes written in a run: the concatenation of the chunks of its `Write` steps. -/
def written : List Step → Bytes
  | [] => []
  | .write p :: rest => p ++ written rest
  | .deliver :: rest => written rest
  | .read _ :: rest => written rest

/-- The start of a run on two heaps. -/
def Run.start {τ ε δ : Type} (ha hb : Heap τ ε δ) : Run τ ε δ :=
  { a := ha, b := hb, got := [], wrote := true }

/-- The contract of an encoder `w` on one end of a connected pair and a decoder `r` on the
other, over the network `net`.  `Sent e t F` reads: in encoder state `e` and transport state
`t` nothing is pending and the plaintext `F` is in flight; `Left d t rest` reads: in
decoder state `d` and transport state `t` the plaintext arrived and not yet returned is
`rest`.  The contract: a `Write` and the `Flush` after it succeed and put the bytes in
flight; the network moves what is in flight to the other end; a `Read` returns, in the
first `n` bytes of the buffer, the next `n` bytes not yet returned, `n` at most the length
of the buffer, and at least one byte when the buffer is not empty and a byte is there. -/
def PairContract {τ ε δ : Type} (net : τ → τ → τ × τ) (w : Encoder τ ε) (r : Decoder τ δ)
    (Sent : ε → τ → Bytes → Prop) (Left : δ → τ → Bytes → Prop) : Prop :=
  (∀ e t F p, Sent e t F →
    (w.Write p e t).1.2 = none ∧
    (w.Flush (w.Write p e t).2.1 (w.Write p e t).2.2).1 = none ∧
    Sent (w.Flush (w.Write p e t).2.1 (w.Write p e t).2.2).2.1
      (w.Flush (w.Write p e t).2.1 (w.Write p e t).2.2).2.2 (F ++ p)) ∧
  (∀ e ta F d tb rest, Sent e ta F → Left d tb rest →
    Sent e (net ta tb).1 [] ∧ Left d (net ta tb).2 (rest ++ F)) ∧
  (∀ d t rest buf, Left d t rest →
    (r.Read buf d t).1.1.toNat ≤ buf.length ∧
    (r.Read buf d t).1.1.toNat ≤ rest.length ∧
    (r.Read buf d t).2.1.take (r.Read buf d t).1.1.toNat
      = rest.take (r.Read buf d t).1.1.toNat ∧
    Left (r.Read buf d t).2.2.1 (r.Read buf d t).2.2.2
      (rest.drop (r.Read buf d t).1.1.toNat) ∧
    (buf ≠ [] → rest ≠ [] → 0 < (r.Read buf d t).1.1))

/-- The contract of the codec package for window size `N` on a connected pair: an encoder
built on one end and a decoder built on the other, with the options `NewZstdStream` passes
for `N`, keep the pair contract. -/
def Compatible {τ ε δ : Type} (zstd : Zstd τ ε δ) (net : τ → τ → τ × τ)
    (connA connB : Conn τ) (N : Int)
    (Sent : ε → τ → Bytes → Prop) (Left : δ → τ → Bytes → Prop) : Prop :=
  ∀ w r, zstd.NewWriter connA (encoderOptions N) = .ok w →
    zstd.NewReader connB (decoderOptions N) = .ok r → PairContract net w r Sent Left

/-- The writing end of the reference pair with plaintext `F` in flight: encoder and
endpoint are open, no write deadline is set, nothing is pending, and a decoder between
frames that takes the bytes in flight decodes `F`. -/
def pipeSent (maxWindow : Nat) (e : EncState) (t : Endpoint) (F : Bytes) : Prop :=
  e.closed = false ∧ e.pending = [] ∧ t.closed = false ∧ t.writeDeadline = 0 ∧
  ∀ d : DecState, d.failed = none → d.phase = Phase.idle →
    feed maxWindow d t.outbox = { d with out := d.out ++ F }

/-- The reading end of the reference pair with plaintext `rest` to be returned: the
endpoint is open on both sides, no read deadline is set, and the decoder, once it has taken
what has arrived, is between frames with `rest` decoded and no error. -/
def pipeLeft (maxWindow : Nat) (d : DecState) (t : Endpoint) (rest : Bytes) : Prop :=
  t.closed = false ∧ t.peerClosed = false ∧ t.readDeadline = 0 ∧
  feed maxWindow d t.inbox = { phase := Phase.idle, out := rest, failed := none }

/-- The invariant of a run in which the bytes `W` have been written: every `Write` has
returned `(len(p), nil)`, and `W` is made of the bytes the reads have returned, those
arrived and not yet returned, and those in flight, in that order. -/
def RunInv {τ ε δ : Type} (Sent : ε → τ → Bytes → Prop) (Left : δ → τ → Bytes → Prop)
    (s : Run τ ε δ) (W : Bytes) : Prop :=
  s.wrote = true ∧
  ∃ F rest, Sent s.a.enc s.a.conn F ∧ Left s.b.dec s.b.conn rest ∧ s.got ++ rest ++ F = W

/-- The number of reads with a non-empty buffer among reads of the given buffer sizes. -/
def nonEmptyReads (sizes : List Nat) : Nat :=
  (sizes.filter (fun n => decide (0 < n))).length

/-! ## Theorems -/

section Lemmas

variable {τ ε δ : Type}

theorem GoError.withStack_ne (e : GoError) : GoError.withStack e ≠ e := by
  intro h
  have hs := congrArg sizeOf h
  simp at hs

theorem Write_of_write_error (c : ZstdStream τ ε δ) (p : Bytes) (h : Heap τ ε δ)
    (e : GoError) (hw : (c.w.Write p h.enc h.conn).1.2 = some e) :
    (c.Write p h).val = (0, some (GoError.withStack e)) ∧
    (c.Write p h).heap.trace = h.trace ++ [Call.encWrite p] := by
  simp [ZstdStream.Write, Encoder.callWrite, hw, errors.WithStack]

theorem Write_of_flush_error (c : ZstdStream τ ε δ) (p : Bytes) (h : Heap τ ε δ)
    (e : GoError) (hw : (c.w.Write p h.enc h.conn).1.2 = none)
    (hf : (c.w.Flush (c.w.Write p h.enc h.conn).2.1 (c.w.Write p h.enc h.conn).2.2).1
      = some e) :
    (c.Write p h).val = (0, some (GoError.withStack e)) ∧
    (c.Write p h).heap.trace = h.trace ++ [Call.encWrite p, Call.encFlush] := by
  simp [ZstdStream.Write, Encoder.callWrite, Encoder.callFlush, hw, hf, errors.WithStack]

theorem Write_of_success (c : ZstdStream τ ε δ) (p : Bytes) (h : Heap τ ε δ)
    (hw : (c.w.Write p h.enc h.conn).1.2 = none)
    (hf : (c.w.Flush (c.w.Write p h.enc h.conn).2.1 (c.w.Write p h.enc h.conn).2.2).1
      = none) :
    (c.Write p h).val = ((p.length : Int), none) ∧
    (c.Write p h).heap.trace = h.trace ++ [Call.encWrite p, Call.encFlush] ∧
    (c.Write p h).heap.enc =
      (c.w.Flush (c.w.Write p h.enc h.conn).2.1 (c.w.Write p h.enc h.conn).2.2).2.1 ∧
    (c.Write p h).heap.conn =
      (c.w.Flush (c.w.Write p h.enc h.conn).2.1 (c.w.Write p h.enc h.conn).2.2).2.2 ∧
    (c.Write p h).heap.dec = h.dec := by
  simp [ZstdStream.Write, Encoder.callWrite, Encoder.callFlush, hw, hf]

/-- The three ways `Write` can go, by the results of the two encoder calls. -/
theorem Write_cases (c : ZstdStream τ ε δ) (p : Bytes) (h : Heap τ ε δ) :
    (∃ e, (c.w.Write p h.enc h.conn).1.2 = some e ∧
      (c.Write p h).val = (0, some (GoError.withStack e))) ∨
    (∃ e, (c.w.Write p h.enc h.conn).1.2 = none ∧
      (c.w.Flush (c.w.Write p h.enc h.conn).2.1 (c.w.Write p h.enc h.conn).2.2).1 = some e ∧
      (c.Write p h).val = (0, some (GoError.withStack e))) ∨
    ((c.w.Write p h.enc h.conn).1.2 = none ∧
      (c.w.Flush (c.w.Write p h.enc h.conn).2.1 (c.w.Write p h.enc h.conn).2.2).1 = none ∧
      (c.Write p h).val = ((p.length : Int), none)) := by
  cases hw : (c.w.Write p h.enc h.conn).1.2 with
  | some e => exact Or.inl ⟨e, rfl, (Write_of_write_error c p h e hw).1⟩
  | none =>
    cases hf : (c.w.Flush (c.w.Write p h.enc h.conn).2.1 (c.w.Write p h.enc h.conn).2.2).1 with
    | some e => exact Or.inr (Or.inl ⟨e, rfl, rfl, (Write_of_flush_error c p h e hw hf).1⟩)
    | none => exact Or.inr (Or.inr ⟨rfl, rfl, (Write_of_success c p h hw hf).1⟩)

/-- The result of `NewZstdStream` when the encoder constructor fails. -/
theorem NewZstdStream_of_writer_error (zstd : Zstd τ ε δ) (conn : Conn τ) (N : Int)
    (e : GoError) (he : zstd.NewWriter conn (encoderOptions N) = .error e) :
    NewZstdStream zstd conn N =
      { stream := none, err := errors.Wrap (some e) "zstd.NewWriter",
        calls := [LibCall.NewWriter conn (encoderOptions N)] } := by
  simp [NewZstdStream, Zstd.callNewWriter, he]

/-- The result of `NewZstdStream` when the decoder constructor fails. -/
theorem NewZstdStream_of_reader_error (zstd : Zstd τ ε δ) (conn : Conn τ) (N : Int)
    (w : Encoder τ ε) (e : GoError)
    (hw : zstd.NewWriter conn (encoderOptions N) = .ok w)
    (he : zstd.NewReader conn (decoderOptions N) = .error e) :
    NewZstdStream zstd conn N =
      { stream := none, err := errors.Wrap (some e) "zstd.NewReader",
        calls := [LibCall.NewWriter conn (encoderOptions N),
                  LibCall.NewReader conn (decoderOptions N)] } := by
  simp [NewZstdStream, Zstd.callNewWriter, Zstd.callNewReader, hw, he]

/-- The result of `NewZstdStream` when both constructors succeed. -/
theorem NewZstdStream_of_ok (zstd : Zstd τ ε δ) (conn : Conn τ) (N : Int)
    (w : Encoder τ ε) (r : Decoder τ δ)
    (hw : zstd.NewWriter conn (encoderOptions N) = .ok w)
    (hr : zstd.NewReader conn (decoderOptions N) = .ok r) :
    NewZstdStream zstd conn N =
      { stream := some { conn := conn, w := w, r := r }, err := none,
        calls := [LibCall.NewWriter conn (encoderOptions N),
                  LibCall.NewReader conn (decoderOptions N)] } := by
  simp [NewZstdStream, Zstd.callNewWriter, Zstd.callNewReader, hw, hr]

/-- The three ways `NewZstdStream` can go, by the results of the two constructors. -/
theorem NewZstdStream_cases (zstd : Zstd τ ε δ) (conn : Conn τ) (N : Int) :
    (∃ e, zstd.NewWriter conn (encoderOptions N) = .error e) ∨
    (∃ w e, zstd.NewWriter conn (encoderOptions N) = .ok w ∧
      zstd.NewReader conn (decoderOptions N) = .error e) ∨
    (∃ w r, zstd.NewWriter conn (encoderOptions N) = .ok w ∧
      zstd.NewReader conn (decoderOptions N) = .ok r) := by
  cases hw : zstd.NewWriter conn (encoderOptions N) with
  | error e => exact Or.inl ⟨e, rfl⟩
  | ok w =>
    cases hr : zstd.NewReader conn (decoderOptions N) with
    | error e => exact Or.inr (Or.inl ⟨w, e, rfl, rfl⟩)
    | ok r => exact Or.inr (Or.inr ⟨w, r, rfl, rfl⟩)

/-- A successful `Write` of the reference encoder keeps every byte pending or handed
over. -/
theorem bufEncoder_write_keeps {σ : Type} (window : Nat) (sink : Conn σ) (q : Bytes)
    (e : EncState) (t : σ) (hw : ((bufEncoder window sink).Write q e t).1.2 = none) :
    ((bufEncoder window sink).Write q e t).2.1.history
        ++ ((bufEncoder window sink).Write q e t).2.1.pending
      = e.history ++ e.pending ++ q := by
  unfold bufEncoder at hw ⊢
  simp only at hw ⊢
  split at hw
  · simp at hw
  · rename_i hc
    simp [hc]

/-- A successful `Flush` of the reference encoder leaves nothing pending and hands over
what was pending. -/
theorem bufEncoder_flush_hands {σ : Type} (window : Nat) (sink : Conn σ) (e : EncState)
    (t : σ) (hf : ((bufEncoder window sink).Flush e t).1 = none) :
    ((bufEncoder window sink).Flush e t).2.1.pending = [] ∧
    ((bufEncoder window sink).Flush e t).2.1.history = e.history ++ e.pending := by
  unfold bufEncoder at hf ⊢
  simp only at hf ⊢
  split at hf
  · simp at hf
  · split at hf
    · simp at hf
    · rename_i hc _ hs
      simp [hc, hs]

end Lemmas

section Claims

variable {τ ε δ : Type}

/-- C1: `Write(p)` returns `(len(p), nil)` exactly when the encoder's `Write` of `p` and the
encoder's `Flush` after it both return a nil error; in every other case it returns the
count `0` with a non-nil error, so the count is `0` whenever the error is non-nil and is
never anything but `0` or `len(p)`. -/
theorem Write_full_length_or_error (c : ZstdStream τ ε δ) (p : Bytes) (h : Heap τ ε δ) :
    ((c.Write p h).val = ((p.length : Int), none) ↔
      ((c.w.Write p h.enc h.conn).1.2 = none ∧
       (c.w.Flush (c.w.Write p h.enc h.conn).2.1 (c.w.Write p h.enc h.conn).2.2).1
         = none)) ∧
    (¬ ((c.w.Write p h.enc h.conn).1.2 = none ∧
        (c.w.Flush (c.w.Write p h.enc h.conn).2.1 (c.w.Write p h.enc h.conn).2.2).1
          = none) →
      (c.Write p h).val.1 = 0 ∧ (c.Write p h).val.2 ≠ none) ∧
    ((c.Write p h).val.2 ≠ none → (c.Write p h).val.1 = 0) ∧
    ((c.Write p h).val.1 = 0 ∨ (c.Write p h).val.1 = (p.length : Int)) := by
  rcases Write_cases c p h with ⟨e, hw, hv⟩ | ⟨e, hw, hf, hv⟩ | ⟨hw, hf, hv⟩
  · simp [hv, hw]
  · simp [hv, hw, hf]
  · simp [hv, hw, hf]

/-- C2: whenever `Write(p)` returns a nil error, the calls it made on the collaborators are
exactly the encoder's `Write` of `p` followed by the encoder's `Flush`, both successful,
the `Flush` being made on the state the `Write` left, and the state `Write` returns in is the
one that `Flush` left.  For an encoder that holds pending bytes (`pending`) which a
successful `Flush` hands to the transport (`handed`), a successful `Write` of the encoder
keeping every byte either pending or handed over: no byte is pending in the encoder when
`Write` returns, and the bytes handed over are those handed over before, those pending
before and `p`. -/
theorem Write_success_flushed (c : ZstdStream τ ε δ) (pending handed : ε → Bytes)
    (hwrite : ∀ q e t, (c.w.Write q e t).1.2 = none →
      handed (c.w.Write q e t).2.1 ++ pending (c.w.Write q e t).2.1
        = handed e ++ pending e ++ q)
    (hflush : ∀ e t, (c.w.Flush e t).1 = none →
      pending (c.w.Flush e t).2.1 = [] ∧
      handed (c.w.Flush e t).2.1 = handed e ++ pending e)
    (p : Bytes) (h : Heap τ ε δ) (hok : (c.Write p h).val.2 = none) :
    (c.w.Write p h.enc h.conn).1.2 = none ∧
    (c.w.Flush (c.w.Write p h.enc h.conn).2.1 (c.w.Write p h.enc h.conn).2.2).1 = none ∧
    (c.Write p h).heap.trace = h.trace ++ [Call.encWrite p, Call.encFlush] ∧
    (c.Write p h).val = ((p.length : Int), none) ∧
    (c.Write p h).heap.enc =
      (c.w.Flush (c.w.Write p h.enc h.conn).2.1 (c.w.Write p h.enc h.conn).2.2).2.1 ∧
    (c.Write p h).heap.conn =
      (c.w.Flush (c.w.Write p h.enc h.conn).2.1 (c.w.Write p h.enc h.conn).2.2).2.2 ∧
    (c.Write p h).heap.dec = h.dec ∧
    pending (c.Write p h).heap.enc = [] ∧
    handed (c.Write p h).heap.enc = handed h.enc ++ pending h.enc ++ p := by
  rcases Write_cases c p h with ⟨e, _, hv⟩ | ⟨e, _, _, hv⟩ | ⟨hw, hf, hv⟩
  · simp [hv] at hok
  · simp [hv] at hok
  · obtain ⟨_, ht, he, hcn, hd⟩ := Write_of_success c p h hw hf
    obtain ⟨hp, hh⟩ := hflush _ _ hf
    refine ⟨hw, hf, ht, hv, he, hcn, hd, ?_, ?_⟩
    · rw [he]; exact hp
    · rw [he, hh]; exact hwrite p _ _ hw

/-- C2 at a concrete input: a write of two bytes through the reference encoder on a fresh
endpoint succeeds, makes the two calls, leaves nothing pending, and the frame of the two
bytes is in flight on the transport. -/
theorem Write_success_flushed_witness :
    (demoStream.Write [7, 8] Heap.fresh).val.2 = none ∧
    ((demoStream.w.Write [7, 8] Heap.fresh.enc Heap.fresh.conn).1.2 = none ∧
     (demoStream.w.Flush (demoStream.w.Write [7, 8] Heap.fresh.enc Heap.fresh.conn).2.1
        (demoStream.w.Write [7, 8] Heap.fresh.enc Heap.fresh.conn).2.2).1 = none ∧
     (demoStream.Write [7, 8] Heap.fresh).heap.trace
        = Heap.fresh.trace ++ [Call.encWrite [7, 8], Call.encFlush] ∧
     (demoStream.Write [7, 8] Heap.fresh).val = ((([7, 8] : Bytes).length : Int), none) ∧
     (demoStream.Write [7, 8] Heap.fresh).heap.enc =
       (demoStream.w.Flush (demoStream.w.Write [7, 8] Heap.fresh.enc Heap.fresh.conn).2.1
          (demoStream.w.Write [7, 8] Heap.fresh.enc Heap.fresh.conn).2.2).2.1 ∧
     (demoStream.Write [7, 8] Heap.fresh).heap.conn =
       (demoStream.w.Flush (demoStream.w.Write [7, 8] Heap.fresh.enc Heap.fresh.conn).2.1
          (demoStream.w.Write [7, 8] Heap.fresh.enc Heap.fresh.conn).2.2).2.2 ∧
     (demoStream.Write [7, 8] Heap.fresh).heap.dec = Heap.fresh.dec ∧
     EncState.pending (demoStream.Write [7, 8] Heap.fresh).heap.enc = [] ∧
     EncState.history (demoStream.Write [7, 8] Heap.fresh).heap.enc
       = EncState.history Heap.fresh.enc ++ EncState.pending Heap.fresh.enc ++ [7, 8]) ∧
    (demoStream.Write [7, 8] Heap.fresh).heap.conn.outbox = [40, 1024, 2, 8, 9] ∧
    (demoStream.Write [7, 8] Heap.fresh).heap.enc
      = { history := [7, 8], pending := [], closed := false } :=
  ⟨by decide,
   Write_success_flushed demoStream EncState.pending EncState.history
     (fun q e t hw => bufEncoder_write_keeps 1024 pipeConn q e t hw)
     (fun e t hf => bufEncoder_flush_hands 1024 pipeConn e t hf)
     [7, 8] Heap.fresh (by decide),
   by decide, by decide⟩

/-- C4: `Close` makes exactly two collaborator calls, the encoder's `Close` and then the
transport's `Close` (on the state the encoder's `Close` left), whatever the encoder's
`Close` returned, and returns exactly the value of the transport's `Close`. -/
theorem Close_calls_and_result (c : ZstdStream τ ε δ) (h : Heap τ ε δ) :
    (c.Close h).heap.trace = h.trace ++ [Call.encClose, Call.connClose] ∧
    (c.Close h).val = (c.conn.Close (c.w.Close h.enc h.conn).2.2).1 ∧
    (c.Close h).heap.conn = (c.conn.Close (c.w.Close h.enc h.conn).2.2).2 ∧
    (c.Close h).heap.enc = (c.w.Close h.enc h.conn).2.1 ∧
    (c.Close h).heap.dec = h.dec ∧
    ((c.conn.Close (c.w.Close h.enc h.conn).2.2).1 = none → (c.Close h).val = none) := by
  simp [ZstdStream.Close, Encoder.callClose, Conn.callErr]

/-- C5: `Read(p)` makes exactly one collaborator call, the decoder's `Read` on `p`, returns
exactly the count and the error that call returned (and leaves in `p` what that call left),
and makes no call on the encoder, whose state is unchanged. -/
theorem Read_delegates (c : ZstdStream τ ε δ) (p : Bytes) (h : Heap τ ε δ) :
    (c.Read p h).heap.trace = h.trace ++ [Call.decRead p] ∧
    (c.Read p h).val.1 = (c.r.Read p h.dec h.conn).1 ∧
    (c.Read p h).val.2 = (c.r.Read p h.dec h.conn).2.1 ∧
    (c.Read p h).heap.dec = (c.r.Read p h.dec h.conn).2.2.1 ∧
    (c.Read p h).heap.conn = (c.r.Read p h.dec h.conn).2.2.2 ∧
    (c.Read p h).heap.enc = h.enc ∧
    (c.Read p h).self = c := by
  simp [ZstdStream.Read, Decoder.callRead]

/-- C6, as stated, fails for `Close`: on the reference collaborators with the write
deadline expired, the encoder's `Close` returns the timeout error and `Close` returns
nil. -/
theorem Close_drops_encoder_error :
    (demoStream.w.Close expiredHeap.enc expiredHeap.conn).1 = some errTimeout ∧
    (demoStream.Close expiredHeap).val = none := by
  decide

/-- C6, amended: an error returned by the decoder's `Read` makes `Read` return a non-nil
error; an error returned by the encoder's `Write`, or by the encoder's `Flush` after a
successful `Write`, makes `Write` return a non-nil error; an error returned by the
transport's `Close` makes `Close` return a non-nil error. -/
theorem errors_reach_caller (c : ZstdStream τ ε δ) (p : Bytes) (h : Heap τ ε δ) :
    ((c.r.Read p h.dec h.conn).1.2 ≠ none → (c.Read p h).val.1.2 ≠ none) ∧
    ((c.w.Write p h.enc h.conn).1.2 ≠ none → (c.Write p h).val.2 ≠ none) ∧
    ((c.w.Write p h.enc h.conn).1.2 = none →
      (c.w.Flush (c.w.Write p h.enc h.conn).2.1 (c.w.Write p h.enc h.conn).2.2).1 ≠ none →
      (c.Write p h).val.2 ≠ none) ∧
    ((c.conn.Close (c.w.Close h.enc h.conn).2.2).1 ≠ none → (c.Close h).val ≠ none) := by
  refine ⟨?_, ?_, ?_, ?_⟩
  · simp [ZstdStream.Read, Decoder.callRead]
  · intro hw
    rcases Write_cases c p h with ⟨e, _, hv⟩ | ⟨e, _, _, hv⟩ | ⟨hw2, _, _⟩
    · simp [hv]
    · simp [hv]
    · exact absurd hw2 hw
  · intro _ hf
    rcases Write_cases c p h with ⟨e, _, hv⟩ | ⟨e, _, _, hv⟩ | ⟨_, hf2, _⟩
    · simp [hv]
    · simp [hv]
    · exact absurd hf2 hf
  · simp [ZstdStream.Close, Encoder.callClose, Conn.callErr]

/-- C7, as stated, fails: with the write deadline expired, a `Write` on the raw transport
returns the timeout error, the encoder's `Flush` fails with that same error, and the
wrapper's `Write` returns a different error value, which does not itself implement the
timeout interface. -/
theorem Write_timeout_not_passed_through :
    (pipeConn.Write [7, 8] expiredHeap.conn).1.2 = some errTimeout ∧
    (demoStream.w.Flush (demoStream.w.Write [7, 8] expiredHeap.enc expiredHeap.conn).2.1
      (demoStream.w.Write [7, 8] expiredHeap.enc expiredHeap.conn).2.2).1 = some errTimeout ∧
    (demoStream.Write [7, 8] expiredHeap).val.2 ≠ some errTimeout ∧
    (demoStream.Write [7, 8] expiredHeap).val.2 = some (GoError.withStack errTimeout) ∧
    errTimeout.isNetTimeout = true ∧
    (GoError.withStack errTimeout).isNetTimeout = false := by
  decide

/-- C7, amended: if the encoder's `Write` fails with `e`, or succeeds and the encoder's
`Flush` fails with `e` (in particular the timeout error of the transport), `Write` returns
the count `0` and the error `errors.WithStack(e)`: a new error value, different from `e`,
with the message of `e`, whose `Unwrap` is `e` and whose root cause is that of `e`, and
which does not itself implement the timeout interface. -/
theorem Write_error_is_WithStack (c : ZstdStream τ ε δ) (p : Bytes) (h : Heap τ ε δ)
    (e : GoError)
    (hfail : (c.w.Write p h.enc h.conn).1.2 = some e ∨
      ((c.w.Write p h.enc h.conn).1.2 = none ∧
       (c.w.Flush (c.w.Write p h.enc h.conn).2.1 (c.w.Write p h.enc h.conn).2.2).1
         = some e)) :
    (c.Write p h).val = (0, errors.WithStack (some e)) ∧
    errors.WithStack (some e) = some (GoError.withStack e) ∧
    GoError.withStack e ≠ e ∧
    (GoError.withStack e).Error = e.Error ∧
    (GoError.withStack e).Unwrap = some e ∧
    (GoError.withStack e).Cause = e.Cause ∧
    (GoError.withStack e).isNetTimeout = false := by
  refine ⟨?_, rfl, GoError.withStack_ne e, rfl, rfl, rfl, rfl⟩
  rcases hfail with hw | ⟨hw, hf⟩
  · exact (Write_of_write_error c p h e hw).1
  · exact (Write_of_flush_error c p h e hw hf).1

/-- C7, amended, at a concrete input: the expired write deadline of the endpoint. -/
theorem Write_error_is_WithStack_witness :
    (demoStream.Write [7, 8] expiredHeap).val = (0, errors.WithStack (some errTimeout)) ∧
    errors.WithStack (some errTimeout) = some (GoError.withStack errTimeout) ∧
    GoError.withStack errTimeout ≠ errTimeout ∧
    (GoError.withStack errTimeout).Error = errTimeout.Error ∧
    (GoError.withStack errTimeout).Unwrap = some errTimeout ∧
    (GoError.withStack errTimeout).Cause = errTimeout.Cause ∧
    (GoError.withStack errTimeout).isNetTimeout = false :=
  Write_error_is_WithStack demoStream [7, 8] expiredHeap errTimeout
    (Or.inr ⟨by decide, by decide⟩)

/-- C8: `NewZstdStream` returns a stream with a nil error or no stream with a non-nil
error.  When the encoder constructor fails with `e`, the result is no stream and
`errors.Wrap(e, "zstd.NewWriter")`, whose message is `"zstd.NewWriter: "` followed by the
message of `e` and which unwraps to `e`, and the decoder constructor is not called; when
the encoder constructor succeeds and the decoder constructor fails with `e`, the result is
no stream and `errors.Wrap(e, "zstd.NewReader")`; when both succeed, the result is the
stream of that connection, encoder and decoder, with a nil error. -/
theorem NewZstdStream_result (zstd : Zstd τ ε δ) (conn : Conn τ) (windowSize : Int) :
    (((NewZstdStream zstd conn windowSize).stream.isSome = true ∧
        (NewZstdStream zstd conn windowSize).err = none) ∨
      ((NewZstdStream zstd conn windowSize).stream.isNone = true ∧
        (NewZstdStream zstd conn windowSize).err ≠ none)) ∧
    (∀ e, zstd.NewWriter conn (encoderOptions windowSize) = .error e →
      (NewZstdStream zstd conn windowSize).stream.isNone = true ∧
      (NewZstdStream zstd conn windowSize).err
        = some (GoError.withStack (GoError.withMessage e "zstd.NewWriter")) ∧
      (GoError.withStack (GoError.withMessage e "zstd.NewWriter")).Error
        = "zstd.NewWriter: " ++ e.Error ∧
      (GoError.withStack (GoError.withMessage e "zstd.NewWriter")).Unwrap.bind GoError.Unwrap
        = some e ∧
      (GoError.withStack (GoError.withMessage e "zstd.NewWriter")).Cause = e.Cause ∧
      (NewZstdStream zstd conn windowSize).calls
        = [LibCall.NewWriter conn (encoderOptions windowSize)] ∧
      (NewZstdStream zstd conn windowSize).calls.any LibCall.isNewReader = false) ∧
    (∀ w e, zstd.NewWriter conn (encoderOptions windowSize) = .ok w →
      zstd.NewReader conn (decoderOptions windowSize) = .error e →
      (NewZstdStream zstd conn windowSize).stream.isNone = true ∧
      (NewZstdStream zstd conn windowSize).err
        = some (GoError.withStack (GoError.withMessage e "zstd.NewReader")) ∧
      (GoError.withStack (GoError.withMessage e "zstd.NewReader")).Error
        = "zstd.NewReader: " ++ e.Error ∧
      (GoError.withStack (GoError.withMessage e "zstd.NewReader")).Unwrap.bind GoError.Unwrap
        = some e ∧
      (GoError.withStack (GoError.withMessage e "zstd.NewReader")).Cause = e.Cause) ∧
    (∀ w r, zstd.NewWriter conn (encoderOptions windowSize) = .ok w →
      zstd.NewReader conn (decoderOptions windowSize) = .ok r →
      (NewZstdStream zstd conn windowSize).stream = some { conn := conn, w := w, r := r } ∧
      (NewZstdStream zstd conn windowSize).err = none) := by
  refine ⟨?_, ?_, ?_, ?_⟩
  · rcases NewZstdStream_cases zstd conn windowSize with ⟨e, he⟩ | ⟨w, e, hw, he⟩ | ⟨w, r, hw, hr⟩
    · rw [NewZstdStream_of_writer_error zstd conn windowSize e he]
      simp [errors.Wrap]
    · rw [NewZstdStream_of_reader_error zstd conn windowSize w e hw he]
      simp [errors.Wrap]
    · rw [NewZstdStream_of_ok zstd conn windowSize w r hw hr]
      simp
  · intro e he
    rw [NewZstdStream_of_writer_error zstd conn windowSize e he]
    simp [errors.Wrap, GoError.Error, GoError.Unwrap, GoError.Cause, LibCall.isNewReader]
  · intro w e hw he
    rw [NewZstdStream_of_reader_error zstd conn windowSize w e hw he]
    simp [errors.Wrap, GoError.Error, GoError.Unwrap, GoError.Cause]
  · intro w r hw hr
    rw [NewZstdStream_of_ok zstd conn windowSize w r hw hr]
    simp

/-- The conversion `uint64(n)` keeps a non-negative `int`. -/
theorem uint64_of_nonneg (n : Int) (h0 : 0 ≤ n) (h1 : n < 2 ^ 63) : (uint64 n : Int) = n := by
  unfold uint64
  have hlt : n < 2 ^ 64 := by omega
  rw [Int.emod_eq_of_lt h0 hlt]
  exact Int.toNat_of_nonneg h0

/-- C9, as stated, fails: for the positive window size 3 the encoder constructor of the
reference package rejects the window, and `NewZstdStream` makes no call of the decoder
constructor. -/
theorem NewZstdStream_no_decoder_request :
    (0 : Int) < 3 ∧
    (NewZstdStream pipeZstd pipeConn 3).calls.any LibCall.isNewReader = false ∧
    (NewZstdStream pipeZstd pipeConn 3).calls.length = 1 := by
  decide

/-- C9, amended: for a positive window size `N` of type `int`, the first constructor call
of `NewZstdStream` is `zstd.NewWriter` on the given connection with concurrency 1, level
`SpeedBestCompression` and window size `N`, and the conversion `uint64(N)` is `N`.  When
that call fails, it is the only constructor call and its error, wrapped, is the result.
When it succeeds, the second and last constructor call is `zstd.NewReader` on the same
connection with maximum window `N`, the same value as the encoder window, and the result
is decided by that call: its error, wrapped, and no stream when it fails, and the stream of
the connection, that encoder and that decoder when it succeeds. -/
theorem NewZstdStream_requests (zstd : Zstd τ ε δ) (conn : Conn τ) (N : Int)
    (hpos : 0 < N) (hint : N < 2 ^ 63) :
    (NewZstdStream zstd conn N).calls.head?
      = some (LibCall.NewWriter conn
          [EOption.WithEncoderConcurrency 1,
           EOption.WithEncoderLevel EncoderLevel.SpeedBestCompression,
           EOption.WithWindowSize N]) ∧
    (uint64 N : Int) = N ∧
    (∀ e, zstd.NewWriter conn
          [EOption.WithEncoderConcurrency 1,
           EOption.WithEncoderLevel EncoderLevel.SpeedBestCompression,
           EOption.WithWindowSize N] = .error e →
      (NewZstdStream zstd conn N).stream.isNone = true ∧
      (NewZstdStream zstd conn N).err = errors.Wrap (some e) "zstd.NewWriter" ∧
      (NewZstdStream zstd conn N).calls
        = [LibCall.NewWriter conn
          [EOption.WithEncoderConcurrency 1,
           EOption.WithEncoderLevel EncoderLevel.SpeedBestCompression,
           EOption.WithWindowSize N]]) ∧
    (∀ w e, zstd.NewWriter conn
          [EOption.WithEncoderConcurrency 1,
           EOption.WithEncoderLevel EncoderLevel.SpeedBestCompression,
           EOption.WithWindowSize N] = .ok w →
      zstd.NewReader conn [DOption.WithDecoderMaxWindow N.toNat] = .error e →
      (NewZstdStream zstd conn N).stream.isNone = true ∧
      (NewZstdStream zstd conn N).err = errors.Wrap (some e) "zstd.NewReader" ∧
      (NewZstdStream zstd conn N).calls
        = [LibCall.NewWriter conn
          [EOption.WithEncoderConcurrency 1,
           EOption.WithEncoderLevel EncoderLevel.SpeedBestCompression,
           EOption.WithWindowSize N],
           LibCall.NewReader conn [DOption.WithDecoderMaxWindow N.toNat]]) ∧
    (∀ w r, zstd.NewWriter conn
          [EOption.WithEncoderConcurrency 1,
           EOption.WithEncoderLevel EncoderLevel.SpeedBestCompression,
           EOption.WithWindowSize N] = .ok w →
      zstd.NewReader conn [DOption.WithDecoderMaxWindow N.toNat] = .ok r →
      (NewZstdStream zstd conn N).stream = some { conn := conn, w := w, r := r } ∧
      (NewZstdStream zstd conn N).err = none ∧
      (NewZstdStream zstd conn N).calls
        = [LibCall.NewWriter conn
          [EOption.WithEncoderConcurrency 1,
           EOption.WithEncoderLevel EncoderLevel.SpeedBestCompression,
           EOption.WithWindowSize N],
           LibCall.NewReader conn [DOption.WithDecoderMaxWindow N.toNat]]) := by
  have hu : (uint64 N : Int) = N := uint64_of_nonneg N (le_of_lt hpos) hint
  have hn : uint64 N = N.toNat := by
    have := congrArg Int.toNat hu
    simpa using this
  have hDO : decoderOptions N = [DOption.WithDecoderMaxWindow N.toNat] := by
    simp [decoderOptions, hn]
  have hEO : encoderOptions N =
      [EOption.WithEncoderConcurrency 1,
       EOption.WithEncoderLevel EncoderLevel.SpeedBestCompression,
       EOption.WithWindowSize N] := rfl
  refine ⟨?_, hu, ?_, ?_, ?_⟩
  · rcases NewZstdStream_cases zstd conn N with ⟨e, he⟩ | ⟨w, e, hw, he⟩ | ⟨w, r, hw, hr⟩
    · rw [NewZstdStream_of_writer_error zstd conn N e he]
      simp [hEO]
    · rw [NewZstdStream_of_reader_error zstd conn N w e hw he]
      simp [hEO]
    · rw [NewZstdStream_of_ok zstd conn N w r hw hr]
      simp [hEO]
  · intro e he
    rw [← hEO] at he ⊢
    rw [NewZstdStream_of_writer_error zstd conn N e he]
    simp
  · intro w e hw he
    rw [← hEO] at hw ⊢
    rw [← hDO] at he ⊢
    rw [NewZstdStream_of_reader_error zstd conn N w e hw he]
    simp
  · intro w r hw hr
    rw [← hEO] at hw ⊢
    rw [← hDO] at hr ⊢
    rw [NewZstdStream_of_ok zstd conn N w r hw hr]
    simp

/-- C9, amended, at a concrete input: window size 1024 on the reference package, where
both constructors succeed and the stream is the one on the reference encoder and decoder
of window 1024. -/
theorem NewZstdStream_requests_witness :
    ((0 : Int) < 1024 ∧ (1024 : Int) < 2 ^ 63) ∧
    ((NewZstdStream pipeZstd pipeConn 1024).calls.head?
      = some (LibCall.NewWriter pipeConn
          [EOption.WithEncoderConcurrency 1,
           EOption.WithEncoderLevel EncoderLevel.SpeedBestCompression,
           EOption.WithWindowSize 1024]) ∧
    (uint64 1024 : Int) = 1024 ∧
    (∀ e, pipeZstd.NewWriter pipeConn
          [EOption.WithEncoderConcurrency 1,
           EOption.WithEncoderLevel EncoderLevel.SpeedBestCompression,
           EOption.WithWindowSize 1024] = .error e →
      (NewZstdStream pipeZstd pipeConn 1024).stream.isNone = true ∧
      (NewZstdStream pipeZstd pipeConn 1024).err = errors.Wrap (some e) "zstd.NewWriter" ∧
      (NewZstdStream pipeZstd pipeConn 1024).calls
        = [LibCall.NewWriter pipeConn
          [EOption.WithEncoderConcurrency 1,
           EOption.WithEncoderLevel EncoderLevel.SpeedBestCompression,
           EOption.WithWindowSize 1024]]) ∧
    (∀ w e, pipeZstd.NewWriter pipeConn
          [EOption.WithEncoderConcurrency 1,
           EOption.WithEncoderLevel EncoderLevel.SpeedBestCompression,
           EOption.WithWindowSize 1024] = .ok w →
      pipeZstd.NewReader pipeConn [DOption.WithDecoderMaxWindow (1024 : Int).toNat] = .error e →
      (NewZstdStream pipeZstd pipeConn 1024).stream.isNone = true ∧
      (NewZstdStream pipeZstd pipeConn 1024).err = errors.Wrap (some e) "zstd.NewReader" ∧
      (NewZstdStream pipeZstd pipeConn 1024).calls
        = [LibCall.NewWriter pipeConn
          [EOption.WithEncoderConcurrency 1,
           EOption.WithEncoderLevel EncoderLevel.SpeedBestCompression,
           EOption.WithWindowSize 1024],
           LibCall.NewReader pipeConn [DOption.WithDecoderMaxWindow (1024 : Int).toNat]]) ∧
    (∀ w r, pipeZstd.NewWriter pipeConn
          [EOption.WithEncoderConcurrency 1,
           EOption.WithEncoderLevel EncoderLevel.SpeedBestCompression,
           EOption.WithWindowSize 1024] = .ok w →
      pipeZstd.NewReader pipeConn [DOption.WithDecoderMaxWindow (1024 : Int).toNat] = .ok r →
      (NewZstdStream pipeZstd pipeConn 1024).stream = some { conn := pipeConn, w := w, r := r } ∧
      (NewZstdStream pipeZstd pipeConn 1024).err = none ∧
      (NewZstdStream pipeZstd pipeConn 1024).calls
        = [LibCall.NewWriter pipeConn
          [EOption.WithEncoderConcurrency 1,
           EOption.WithEncoderLevel EncoderLevel.SpeedBestCompression,
           EOption.WithWindowSize 1024],
           LibCall.NewReader pipeConn [DOption.WithDecoderMaxWindow (1024 : Int).toNat]])) ∧
    (NewZstdStream pipeZstd pipeConn 1024).stream = some demoStream ∧
    (NewZstdStream pipeZstd pipeConn 1024).calls.length = 2 :=
  ⟨⟨by decide, by decide⟩,
   NewZstdStream_requests pipeZstd pipeConn 1024 (by decide) (by decide), rfl, by decide⟩

/-- C10: each of `LocalAddr`, `RemoteAddr`, `SetDeadline(t)`, `SetReadDeadline(t)` and
`SetWriteDeadline(t)` makes exactly one collaborator call, the method of the same name on
the wrapped connection with the same argument, returns the result of that call, leaves the
connection in the state that call left, and leaves the encoder state, the decoder state and
the three fields of the stream unchanged. -/
theorem address_and_deadline_delegation (c : ZstdStream τ ε δ) (t : Time) (h : Heap τ ε δ) :
    ((c.LocalAddr h).val = (c.conn.LocalAddr h.conn).1 ∧
      (c.LocalAddr h).heap.trace = h.trace ++ [Call.connLocalAddr] ∧
      (c.LocalAddr h).heap.conn = (c.conn.LocalAddr h.conn).2 ∧
      (c.LocalAddr h).heap.enc = h.enc ∧ (c.LocalAddr h).heap.dec = h.dec ∧
      (c.LocalAddr h).self = c) ∧
    ((c.RemoteAddr h).val = (c.conn.RemoteAddr h.conn).1 ∧
      (c.RemoteAddr h).heap.trace = h.trace ++ [Call.connRemoteAddr] ∧
      (c.RemoteAddr h).heap.conn = (c.conn.RemoteAddr h.conn).2 ∧
      (c.RemoteAddr h).heap.enc = h.enc ∧ (c.RemoteAddr h).heap.dec = h.dec ∧
      (c.RemoteAddr h).self = c) ∧
    ((c.SetDeadline t h).val = (c.conn.SetDeadline t h.conn).1 ∧
      (c.SetDeadline t h).heap.trace = h.trace ++ [Call.connSetDeadline t] ∧
      (c.SetDeadline t h).heap.conn = (c.conn.SetDeadline t h.conn).2 ∧
      (c.SetDeadline t h).heap.enc = h.enc ∧ (c.SetDeadline t h).heap.dec = h.dec ∧
      (c.SetDeadline t h).self = c) ∧
    ((c.SetReadDeadline t h).val = (c.conn.SetReadDeadline t h.conn).1 ∧
      (c.SetReadDeadline t h).heap.trace = h.trace ++ [Call.connSetReadDeadline t] ∧
      (c.SetReadDeadline t h).heap.conn = (c.conn.SetReadDeadline t h.conn).2 ∧
      (c.SetReadDeadline t h).heap.enc = h.enc ∧ (c.SetReadDeadline t h).heap.dec = h.dec ∧
      (c.SetReadDeadline t h).self = c) ∧
    ((c.SetWriteDeadline t h).val = (c.conn.SetWriteDeadline t h.conn).1 ∧
      (c.SetWriteDeadline t h).heap.trace = h.trace ++ [Call.connSetWriteDeadline t] ∧
      (c.SetWriteDeadline t h).heap.conn = (c.conn.SetWriteDeadline t h.conn).2 ∧
      (c.SetWriteDeadline t h).heap.enc = h.enc ∧ (c.SetWriteDeadline t h).heap.dec = h.dec ∧
      (c.SetWriteDeadline t h).self = c) := by
  simp [ZstdStream.LocalAddr, ZstdStream.RemoteAddr, ZstdStream.SetDeadline,
    ZstdStream.SetReadDeadline, ZstdStream.SetWriteDeadline, Conn.callErr, Conn.callAddr]

end Claims

section RoundTrip

variable {τ ε δ : Type}

theorem NewZstdStream_some (zstd : Zstd τ ε δ) (conn : Conn τ) (N : Int)
    (a : ZstdStream τ ε δ) (ha : (NewZstdStream zstd conn N).stream = some a) :
    ∃ w r, zstd.NewWriter conn (encoderOptions N) = .ok w ∧
      zstd.NewReader conn (decoderOptions N) = .ok r ∧
      a = { conn := conn, w := w, r := r } := by
  rcases NewZstdStream_cases zstd conn N with ⟨e, he⟩ | ⟨w, e, hw, he⟩ | ⟨w, r, hw, hr⟩
  · rw [NewZstdStream_of_writer_error zstd conn N e he] at ha
    simp at ha
  · rw [NewZstdStream_of_reader_error zstd conn N w e hw he] at ha
    simp at ha
  · rw [NewZstdStream_of_ok zstd conn N w r hw hr] at ha
    simp only [Option.some.injEq] at ha
    exact ⟨w, r, hw, hr, ha.symm⟩

theorem written_append (xs ys : List Step) : written (xs ++ ys) = written xs ++ written ys := by
  induction xs with
  | nil => rfl
  | cons st rest ih => cases st <;> simp [written, ih]

theorem written_reads (sizes : List Nat) : written (sizes.map Step.read) = [] := by
  induction sizes with
  | nil => rfl
  | cons k ks ih => simpa [written] using ih

theorem written_writes (chunks : List Bytes) :
    written (chunks.map Step.write) = chunks.flatten := by
  induction chunks with
  | nil => rfl
  | cons p ps ih => simp [written, ih]

theorem run_append (net : τ → τ → τ × τ) (a b : ZstdStream τ ε δ) (s : Run τ ε δ)
    (xs ys : List Step) : run net a b s (xs ++ ys) = run net a b (run net a b s xs) ys := by
  simp [run, List.foldl_append]

theorem step_inv (net : τ → τ → τ × τ) (a b : ZstdStream τ ε δ)
    (Sent : ε → τ → Bytes → Prop) (Left : δ → τ → Bytes → Prop)
    (hc : PairContract net a.w b.r Sent Left) (s : Run τ ε δ) (W : Bytes)
    (hI : RunInv Sent Left s W) (st : Step) :
    RunInv Sent Left (step net a b s st) (W ++ written [st]) := by
  obtain ⟨hwr, F, rest, hS, hL, hW⟩ := hI
  obtain ⟨cw, cd, cr⟩ := hc
  cases st with
  | write p =>
    obtain ⟨hw, hf, hS2⟩ := cw _ _ F p hS
    obtain ⟨hv, _, he, hcn, _⟩ := Write_of_success a p s.a hw hf
    refine ⟨by simp [step, hv, hwr], F ++ p, rest, ?_, hL, ?_⟩
    · simp only [step]
      rw [he, hcn]
      exact hS2
    · simp [step, written, ← hW]
  | deliver =>
    obtain ⟨hS2, hL2⟩ := cd _ _ F _ _ rest hS hL
    exact ⟨hwr, [], rest ++ F, hS2, hL2, by simp [step, written, ← hW]⟩
  | read size =>
    obtain ⟨_, _, ht, hL2, _⟩ := cr _ _ rest (List.replicate size 0) hL
    refine ⟨hwr, F, rest.drop (b.r.Read (List.replicate size 0) s.b.dec s.b.conn).1.1.toNat,
      hS, hL2, ?_⟩
    simp only [step, ZstdStream.Read, Decoder.callRead, written, List.append_nil]
    rw [ht, ← hW]
    simp [List.append_assoc]

theorem run_inv (net : τ → τ → τ × τ) (a b : ZstdStream τ ε δ)
    (Sent : ε → τ → Bytes → Prop) (Left : δ → τ → Bytes → Prop)
    (hc : PairContract net a.w b.r Sent Left) (steps : List Step) :
    ∀ (s : Run τ ε δ) (W : Bytes), RunInv Sent Left s W →
      RunInv Sent Left (run net a b s steps) (W ++ written steps) := by
  induction steps with
  | nil => intro s W hI; simpa [run, written] using hI
  | cons st rest ih =>
    intro s W hI
    have h1 := step_inv net a b Sent Left hc s W hI st
    have h2 := ih _ _ h1
    have hw : written (st :: rest) = written [st] ++ written rest :=
      written_append [st] rest
    rw [hw, ← List.append_assoc]
    exact h2

theorem reads_drain (net : τ → τ → τ × τ) (a b : ZstdStream τ ε δ)
    (Sent : ε → τ → Bytes → Prop) (Left : δ → τ → Bytes → Prop)
    (hc : PairContract net a.w b.r Sent Left) (sizes : List Nat) :
    ∀ (s : Run τ ε δ) (rest : Bytes), Left s.b.dec s.b.conn rest →
      ∃ rest', (run net a b s (sizes.map Step.read)).got ++ rest' = s.got ++ rest ∧
        (rest' = [] ∨ rest'.length + nonEmptyReads sizes ≤ rest.length) := by
  induction sizes with
  | nil => intro s rest _; exact ⟨rest, by simp [run], Or.inr (by simp [nonEmptyReads])⟩
  | cons k ks ih =>
    intro s rest hL
    obtain ⟨_, hle, ht, hL2, hpos⟩ := hc.2.2 _ _ rest (List.replicate k 0) hL
    have hL3 : Left (step net a b s (Step.read k)).b.dec (step net a b s (Step.read k)).b.conn
        (rest.drop (b.r.Read (List.replicate k 0) s.b.dec s.b.conn).1.1.toNat) := by
      simpa [step, ZstdStream.Read, Decoder.callRead] using hL2
    obtain ⟨rest', hg, hr⟩ := ih _ _ hL3
    refine ⟨rest', ?_, ?_⟩
    · have hrun : run net a b s ((k :: ks).map Step.read)
          = run net a b (step net a b s (Step.read k)) (ks.map Step.read) := by
        simp [run]
      rw [hrun, hg]
      simp only [step, ZstdStream.Read, Decoder.callRead]
      rw [ht, List.append_assoc, List.take_append_drop]
    · rcases hr with hr | hr
      · exact Or.inl hr
      · rw [List.length_drop] at hr
        by_cases hk : 0 < k
        · have hcount : nonEmptyReads (k :: ks) = nonEmptyReads ks + 1 := by
            simp [nonEmptyReads, hk]
          by_cases hrest : rest = []
          · left
            subst hrest
            simp at hr
            exact hr.1
          · right
            have hbuf : List.replicate k 0 ≠ [] := by
              intro h
              have := congrArg List.length h
              simp at this
              omega
            have hn := hpos hbuf hrest
            have hn2 : 1 ≤ (b.r.Read (List.replicate k 0) s.b.dec s.b.conn).1.1.toNat := by
              omega
            rw [hcount]
            omega
        · right
          have hcount : nonEmptyReads (k :: ks) = nonEmptyReads ks := by
            simp [nonEmptyReads, hk]
          rw [hcount]
          omega

theorem run_complete (net : τ → τ → τ × τ) (a b : ZstdStream τ ε δ)
    (Sent : ε → τ → Bytes → Prop) (Left : δ → τ → Bytes → Prop)
    (hc : PairContract net a.w b.r Sent Left) (s0 : Run τ ε δ)
    (hI : RunInv Sent Left s0 []) (steps : List Step) (sizes : List Nat) :
    (run net a b s0 steps).wrote = true ∧
    (run net a b s0 steps).got <+: written steps ∧
    ((written steps).length ≤ nonEmptyReads sizes →
      (run net a b s0 (steps ++ Step.deliver :: sizes.map Step.read)).got
        = written steps) := by
  have h1 := run_inv net a b Sent Left hc steps s0 [] hI
  rw [List.nil_append] at h1
  obtain ⟨hwr, F, rest, hS, hL, hW⟩ := h1
  refine ⟨hwr, ⟨rest ++ F, by rw [← List.append_assoc]; exact hW⟩, ?_⟩
  intro hlen
  obtain ⟨_, hL2⟩ := hc.2.1 _ _ F _ _ rest hS hL
  have hL3 : Left (step net a b (run net a b s0 steps) Step.deliver).b.dec
      (step net a b (run net a b s0 steps) Step.deliver).b.conn (rest ++ F) := by
    simpa [step] using hL2
  obtain ⟨rest', hg, hr⟩ := reads_drain net a b Sent Left hc sizes _ _ hL3
  have hrun : run net a b s0 (steps ++ Step.deliver :: sizes.map Step.read)
      = run net a b (step net a b (run net a b s0 steps) Step.deliver)
          (sizes.map Step.read) := by
    rw [run_append]
    simp [run]
  have hgot : (step net a b (run net a b s0 steps) Step.deliver).got
      = (run net a b s0 steps).got := by
    simp [step]
  rw [hrun]
  rw [hgot, ← List.append_assoc, hW] at hg
  have hWlen : (rest ++ F).length ≤ (written steps).length := by
    rw [← hW]
    simp only [List.length_append]
    omega
  have hnil : rest' = [] := by
    rcases hr with hr | hr
    · exact hr
    · exact List.eq_nil_of_length_eq_zero (by omega)
  rw [hnil, List.append_nil] at hg
  exact hg

end RoundTrip

section Reference

theorem feed_append (mw : Nat) (d : DecState) (x y : Bytes) :
    feed mw d (x ++ y) = feed mw (feed mw d x) y := by
  simp [feed, List.foldl_append]

theorem feed_payload (mw : Nat) (q : Bytes) :
    ∀ (d : DecState) (k : Nat), d.failed = none → d.phase = Phase.payload k →
      q.length = k + 1 →
      feed mw d (q.map (· + 1)) = { d with out := d.out ++ q, phase := Phase.idle } := by
  induction q with
  | nil => intro d k _ _ hq; simp at hq
  | cons x xs ih =>
    intro d k hf hp hq
    cases k with
    | zero =>
      have hxs : xs = [] := List.eq_nil_of_length_eq_zero (by simpa using hq)
      subst hxs
      simp [feed, feedByte, hf, hp]
    | succ m =>
      have hlen : xs.length = m + 1 := by simpa using hq
      have hstep : feed mw d ((x :: xs).map (· + 1))
          = feed mw { d with out := d.out ++ [x], phase := Phase.payload m }
              (xs.map (· + 1)) := by
        simp [feed, feedByte, hf, hp]
      rw [hstep, ih { d with out := d.out ++ [x], phase := Phase.payload m } m hf rfl hlen]
      simp

theorem feed_frame (mw window : Nat) (hwin : window ≤ mw) (p : Bytes) (d : DecState)
    (hf : d.failed = none) (hp : d.phase = Phase.idle) :
    feed mw d (frame window p) = { d with out := d.out ++ p } := by
  cases p with
  | nil =>
    cases d
    simp_all [feed, feedByte, frame, frameMagic]
  | cons x xs =>
    have hhead : feed mw d (frame window (x :: xs))
        = feed mw { d with phase := Phase.payload xs.length } ((x :: xs).map (· + 1)) := by
      simp [feed, feedByte, frame, frameMagic, hf, hp, hwin]
    rw [hhead, feed_payload mw (x :: xs) { d with phase := Phase.payload xs.length }
      xs.length hf rfl (by simp)]
    cases d
    simp_all

theorem pipe_pull (t : Endpoint) (hc : t.closed = false) (hp : t.peerClosed = false)
    (hd : t.readDeadline = 0) :
    (pipeConn.Read (List.replicate (t.inbox.length + 1) 0) t).2.1.take
        (pipeConn.Read (List.replicate (t.inbox.length + 1) 0) t).1.1.toNat = t.inbox ∧
    (pipeConn.Read (List.replicate (t.inbox.length + 1) 0) t).1.2 = none ∧
    (pipeConn.Read (List.replicate (t.inbox.length + 1) 0) t).2.2 = { t with inbox := [] } := by
  cases t with
  | mk outbox inbox closed peerClosed now rd wd =>
    simp only at hc hp hd
    subst hc hp hd
    cases inbox with
    | nil => simp [pipeConn]
    | cons x xs => simp [pipeConn, List.replicate_succ, -Nat.cast_min]

theorem pipe_write_ok (window : Nat) (e : EncState) (t : Endpoint) (F p : Bytes)
    (hS : pipeSent window e t F) :
    ((bufEncoder window pipeConn).Write p e t).1.2 = none ∧
    ((bufEncoder window pipeConn).Flush ((bufEncoder window pipeConn).Write p e t).2.1
      ((bufEncoder window pipeConn).Write p e t).2.2).1 = none ∧
    pipeSent window
      ((bufEncoder window pipeConn).Flush ((bufEncoder window pipeConn).Write p e t).2.1
        ((bufEncoder window pipeConn).Write p e t).2.2).2.1
      ((bufEncoder window pipeConn).Flush ((bufEncoder window pipeConn).Write p e t).2.1
        ((bufEncoder window pipeConn).Write p e t).2.2).2.2 (F ++ p) := by
  obtain ⟨h1, h2, h3, h4, h5⟩ := hS
  cases e with
  | mk history pending eclosed =>
    cases t with
    | mk outbox inbox closed peerClosed now rd wd =>
      simp only at h1 h2 h3 h4 h5
      subst h1 h2 h3 h4
      refine ⟨by simp [bufEncoder], by simp [bufEncoder, pipeConn], ?_⟩
      simp only [bufEncoder, pipeConn, pipeSent]
      simp only [Bool.false_eq_true, if_false, ne_eq, not_true_eq_false, false_and,
        List.nil_append, true_and]
      intro d hf hp
      rw [feed_append, h5 d hf hp,
        feed_frame window window (le_refl _) p { d with out := d.out ++ F } hf hp]
      simp [List.append_assoc]

theorem pipe_deliver_ok (mw : Nat) (e : EncState) (ta : Endpoint) (F : Bytes)
    (d : DecState) (tb : Endpoint) (rest : Bytes)
    (hS : pipeSent mw e ta F) (hL : pipeLeft mw d tb rest) :
    pipeSent mw e (deliver ta tb).1 [] ∧ pipeLeft mw d (deliver ta tb).2 (rest ++ F) := by
  obtain ⟨h1, h2, h3, h4, h5⟩ := hS
  obtain ⟨g1, g2, g3, g4⟩ := hL
  refine ⟨⟨h1, h2, h3, h4, ?_⟩, ⟨g1, ?_, g3, ?_⟩⟩
  · intro d2 _ _
    simp [deliver, feed]
  · simp [deliver, g2, h3]
  · simp only [deliver]
    rw [feed_append, g4, h5 _ rfl rfl]

theorem pipe_read_ok (mw : Nat) (d : DecState) (t : Endpoint) (rest buf : Bytes)
    (hL : pipeLeft mw d t rest) :
    ((pipeDecoder mw).Read buf d t).1.1.toNat ≤ buf.length ∧
    ((pipeDecoder mw).Read buf d t).1.1.toNat ≤ rest.length ∧
    ((pipeDecoder mw).Read buf d t).2.1.take ((pipeDecoder mw).Read buf d t).1.1.toNat
      = rest.take ((pipeDecoder mw).Read buf d t).1.1.toNat ∧
    pipeLeft mw ((pipeDecoder mw).Read buf d t).2.2.1 ((pipeDecoder mw).Read buf d t).2.2.2
      (rest.drop ((pipeDecoder mw).Read buf d t).1.1.toNat) ∧
    (buf ≠ [] → rest ≠ [] → 0 < ((pipeDecoder mw).Read buf d t).1.1) := by
  obtain ⟨g1, g2, g3, g4⟩ := hL
  obtain ⟨p1, p2, p3⟩ := pipe_pull t g1 g2 g3
  unfold pipeDecoder
  simp only [p1, p2, p3, g4]
  by_cases hn : 0 < min buf.length rest.length ∨ buf = []
  · simp only [hn, if_true, Int.toNat_ofNat]
    refine ⟨Nat.min_le_left _ _, Nat.min_le_right _ _, ?_, ⟨g1, g2, g3, by simp [feed]⟩, ?_⟩
    · rw [List.take_append_of_le_length (by simp)]
      simp
    · intro hb hr
      have h1 : 0 < buf.length := List.length_pos.mpr hb
      have h2 : 0 < rest.length := List.length_pos.mpr hr
      have : 0 < min buf.length rest.length := by omega
      exact_mod_cast this
  · simp only [hn, if_false]
    have hb : buf ≠ [] := fun h => hn (Or.inr h)
    have hrest : rest = [] := by
      by_contra hr
      have h1 : 0 < buf.length := List.length_pos.mpr hb
      have h2 : 0 < rest.length := List.length_pos.mpr hr
      exact hn (Or.inl (by omega))
    subst hrest
    simp [pipeLeft, g1, g2, g3, feed]

/-- The reference encoder and decoder of one window keep the pair contract over the
reference network. -/
theorem pipe_contract (window : Nat) :
    PairContract deliver (bufEncoder window pipeConn) (pipeDecoder window)
      (pipeSent window) (pipeLeft window) :=
  ⟨fun e t F p hS => pipe_write_ok window e t F p hS,
   fun e ta F d tb rest hS hL => pipe_deliver_ok window e ta F d tb rest hS hL,
   fun d t rest buf hL => pipe_read_ok window d t rest buf hL⟩

/-- The reference package is compatible at one and the same window size on both ends. -/
theorem pipe_compatible (N : Int) (hN : 0 ≤ N) (hN2 : N < 2 ^ 63) :
    Compatible pipeZstd deliver pipeConn pipeConn N (pipeSent N.toNat) (pipeLeft N.toNat) := by
  intro w r hw hr
  have hu : uint64 N = N.toNat := by
    have := congrArg Int.toNat (uint64_of_nonneg N hN hN2)
    simpa using this
  have hew : encoderWindow (encoderOptions N) = N.toNat := by
    simp [encoderWindow, encoderOptions]
  have hdw : decoderMaxWindow (decoderOptions N) = N.toNat := by
    simp [decoderMaxWindow, decoderOptions, hu]
  simp only [pipeZstd] at hw hr
  split at hw
  · split at hr
    · simp only [Except.ok.injEq] at hw hr
      rw [← hw, ← hr, hew, hdw]
      exact pipe_contract N.toNat
    · simp at hr
  · simp at hw

/-- A fresh pair of the reference collaborators has nothing in flight. -/
theorem pipeSent_fresh (mw : Nat) : pipeSent mw Heap.fresh.enc Heap.fresh.conn [] :=
  ⟨rfl, rfl, rfl, rfl, fun d _ _ => by simp [Heap.fresh, Endpoint.fresh, feed]⟩

/-- A fresh pair of the reference collaborators has nothing to return. -/
theorem pipeLeft_fresh (mw : Nat) : pipeLeft mw Heap.fresh.dec Heap.fresh.conn [] :=
  ⟨rfl, rfl, rfl, rfl⟩

/-- The reference decoder rejects the frames of an encoder with a larger window: the
`Read` after the arrival of such a frame returns no byte and the decode error. -/
theorem pipe_window_mismatch :
    ((pipeStream 1024).Read [0, 0]
      (run deliver (pipeStream 2048) (pipeStream 1024) (Run.start Heap.fresh Heap.fresh)
        [Step.write [7], Step.deliver]).b).val.1 = (0, some errWindowExceeded) := by
  decide

/-- The reference decoder rejects input that is not a frame. -/
theorem pipe_malformed_input :
    (demoStream.Read [0, 0]
      { Heap.fresh with conn := { Endpoint.fresh with inbox := [1, 2, 3] } }).val.1
      = (0, some errInvalidInput) := by
  decide

end Reference

/-- C3: round trip.  For a codec package that is compatible at window size `N` on a
connected pair (an encoder on one end and a decoder on the other, built with the options
`NewZstdStream` passes for `N`, keep the pair contract), two wrappers `a` and `b` built by
`NewZstdStream` with that same window size on the two ends, every list of chunks written
by successive `Write` calls on `a`, and every list of buffer sizes used by successive
`Read` calls on `b`: every `Write` returns `(len(chunk), nil)`, the bytes the `Read` calls
return, concatenated, are a prefix of the concatenation `B` of the chunks, whatever the
buffer sizes, and they are `B` itself for a reader that reads on: when, after the bytes
have arrived, at least `len(B)` of the reads have a non-empty buffer.  The same holds for
every interleaving of the writes, the deliveries of the network and the reads. -/
theorem roundTrip_reads_on {τ ε δ : Type} (zstd : Zstd τ ε δ) (net : τ → τ → τ × τ)
    (connA connB : Conn τ) (N : Int) (a b : ZstdStream τ ε δ)
    (ha : (NewZstdStream zstd connA N).stream = some a)
    (hb : (NewZstdStream zstd connB N).stream = some b)
    (Sent : ε → τ → Bytes → Prop) (Left : δ → τ → Bytes → Prop)
    (hc : Compatible zstd net connA connB N Sent Left)
    (heapA heapB : Heap τ ε δ)
    (hS : Sent heapA.enc heapA.conn []) (hL : Left heapB.dec heapB.conn [])
    (chunks : List Bytes) (steps : List Step) (sizes : List Nat) :
    ((run net a b (Run.start heapA heapB)
        (chunks.map Step.write ++ Step.deliver :: sizes.map Step.read)).wrote = true ∧
     (run net a b (Run.start heapA heapB)
        (chunks.map Step.write ++ Step.deliver :: sizes.map Step.read)).got
        <+: chunks.flatten ∧
     (chunks.flatten.length ≤ nonEmptyReads sizes →
       (run net a b (Run.start heapA heapB)
          (chunks.map Step.write ++ Step.deliver :: sizes.map Step.read)).got
         = chunks.flatten)) ∧
    ((run net a b (Run.start heapA heapB) steps).wrote = true ∧
     (run net a b (Run.start heapA heapB) steps).got <+: written steps ∧
     ((written steps).length ≤ nonEmptyReads sizes →
       (run net a b (Run.start heapA heapB)
          (steps ++ Step.deliver :: sizes.map Step.read)).got = written steps)) := by
  obtain ⟨w, _, hw, _, ha2⟩ := NewZstdStream_some zstd connA N a ha
  obtain ⟨_, r, _, hr, hb2⟩ := NewZstdStream_some zstd connB N b hb
  have hpc : PairContract net a.w b.r Sent Left := by
    rw [ha2, hb2]
    exact hc w r hw hr
  have hI : RunInv Sent Left (Run.start heapA heapB) [] :=
    ⟨rfl, [], [], hS, hL, rfl⟩
  refine ⟨?_, run_complete net a b Sent Left hpc _ hI steps sizes⟩
  have hall := run_complete net a b Sent Left hpc _ hI
    (chunks.map Step.write ++ Step.deliver :: sizes.map Step.read) sizes
  have hwr := run_complete net a b Sent Left hpc _ hI (chunks.map Step.write) sizes
  have hB : written (chunks.map Step.write ++ Step.deliver :: sizes.map Step.read)
      = chunks.flatten := by
    rw [written_append, written_writes]
    simp [written, written_reads]
  rw [hB] at hall
  rw [written_writes] at hwr
  exact ⟨hall.1, hall.2.1, hwr.2.2⟩

/-- C3 at a concrete input: the reference package at window size 1024 on both ends, four
bytes written in four chunks (one of them empty) and five reads (one of them with an
empty buffer); and an interleaving with reads before the bytes have arrived. -/
theorem roundTrip_reads_on_witness :
    ((NewZstdStream pipeZstd pipeConn 1024).stream = some demoStream ∧
      Compatible pipeZstd deliver pipeConn pipeConn 1024 (pipeSent 1024) (pipeLeft 1024) ∧
      pipeSent 1024 Heap.fresh.enc Heap.fresh.conn [] ∧
      pipeLeft 1024 Heap.fresh.dec Heap.fresh.conn []) ∧
    (((run deliver demoStream demoStream (Run.start Heap.fresh Heap.fresh)
        ([[7], [8, 9], [], [10]].map Step.write ++ Step.deliver ::
          [1, 0, 2, 5, 1].map Step.read)).wrote = true ∧
     (run deliver demoStream demoStream (Run.start Heap.fresh Heap.fresh)
        ([[7], [8, 9], [], [10]].map Step.write ++ Step.deliver ::
          [1, 0, 2, 5, 1].map Step.read)).got
        <+: [[7], [8, 9], [], [10]].flatten ∧
     ([[7], [8, 9], [], [10]].flatten.length ≤ nonEmptyReads [1, 0, 2, 5, 1] →
       (run deliver demoStream demoStream (Run.start Heap.fresh Heap.fresh)
          ([[7], [8, 9], [], [10]].map Step.write ++ Step.deliver ::
            [1, 0, 2, 5, 1].map Step.read)).got
         = [[7], [8, 9], [], [10]].flatten)) ∧
    ((run deliver demoStream demoStream (Run.start Heap.fresh Heap.fresh)
        [Step.read 3, Step.write [7], Step.deliver, Step.read 1, Step.write [8, 9]]).wrote
        = true ∧
     (run deliver demoStream demoStream (Run.start Heap.fresh Heap.fresh)
        [Step.read 3, Step.write [7], Step.deliver, Step.read 1, Step.write [8, 9]]).got
        <+: written
          [Step.read 3, Step.write [7], Step.deliver, Step.read 1, Step.write [8, 9]] ∧
     ((written
          [Step.read 3, Step.write [7], Step.deliver, Step.read 1, Step.write [8, 9]]).length
        ≤ nonEmptyReads [1, 0, 2, 5, 1] →
       (run deliver demoStream demoStream (Run.start Heap.fresh Heap.fresh)
          ([Step.read 3, Step.write [7], Step.deliver, Step.read 1, Step.write [8, 9]] ++
            Step.deliver :: [1, 0, 2, 5, 1].map Step.read)).got
         = written
            [Step.read 3, Step.write [7], Step.deliver, Step.read 1, Step.write [8, 9]]))) ∧
    [[7], [8, 9], [], [10]].flatten.length ≤ nonEmptyReads [1, 0, 2, 5, 1] ∧
    (run deliver demoStream demoStream (Run.start Heap.fresh Heap.fresh)
        ([[7], [8, 9], [], [10]].map Step.write ++ Step.deliver ::
          [1, 0, 2, 5, 1].map Step.read)).got = [7, 8, 9, 10] ∧
    (run deliver demoStream demoStream (Run.start Heap.fresh Heap.fresh)
        [Step.read 3, Step.write [7], Step.deliver, Step.read 1, Step.write [8, 9]]).got
      = [7] :=
  ⟨⟨rfl, pipe_compatible 1024 (by decide) (by decide), pipeSent_fresh 1024,
      pipeLeft_fresh 1024⟩,
   roundTrip_reads_on pipeZstd deliver pipeConn pipeConn 1024 demoStream demoStream rfl rfl
     (pipeSent 1024) (pipeLeft 1024) (pipe_compatible 1024 (by decide) (by decide))
     Heap.fresh Heap.fresh (pipeSent_fresh 1024) (pipeLeft_fresh 1024)
     [[7], [8, 9], [], [10]]
     [Step.read 3, Step.write [7], Step.deliver, Step.read 1, Step.write [8, 9]]
     [1, 0, 2, 5, 1],
   by decide, by decide, by decide⟩

end CompZstd
